import Mathlib

/-!
Verification of the PROS SDK header patcher (`patch_headers.py`) and the
version stamper (`version.py`).

Lines of a header are modelled as `List Char` (the result of Python
`str.splitlines()`, i.e. without their terminators).  The per-line classifier
loop of `patch_headers.py` (lines 52-86) is embedded as `processLines`; the
whole-text transformation (split, classify, re-join with `"\n"`) as
`transformText`.  The filesystem orchestration of both scripts is embedded as
explicit state passing over small world structures, recording I/O as an event
trace.
-/

namespace Pros

/-- Python `str.isspace` on the characters that can occur in text, restricted
to the code points Python treats as whitespace. -/
def isPySpace (c : Char) : Bool :=
  [9, 10, 11, 12, 13, 28, 29, 30, 31, 32, 133, 160, 5760,
   8192, 8193, 8194, 8195, 8196, 8197, 8198, 8199, 8200, 8201, 8202,
   8232, 8233, 8239, 8287, 12288].contains c.toNat

/-- Code points at which Python `str.splitlines` breaks a line
(besides the combined `"\r\n"` sequence, handled separately). -/
def isLineBreak (c : Char) : Bool :=
  [10, 11, 12, 13, 28, 29, 30, 133, 8232, 8233].contains c.toNat

/-- Python `s.startswith(p)` for a single pattern string. -/
def startsWith : List Char → List Char → Bool
  | [], _ => true
  | _ :: _, [] => false
  | p :: ps, c :: cs => p == c && startsWith ps cs

/-- Python `p in s` (contiguous substring containment). -/
def isSubstring (pat : List Char) : List Char → Bool
  | [] => startsWith pat []
  | c :: rest => startsWith pat (c :: rest) || isSubstring pat rest

/-- Left part of Python `str.strip()`: drop leading whitespace. -/
def lstrip (l : List Char) : List Char := l.dropWhile isPySpace

/-- Right part of Python `str.strip()`: drop trailing whitespace. -/
def rstrip : List Char → List Char
  | [] => []
  | c :: t =>
    let r := rstrip t
    if isPySpace c && r.isEmpty then [] else c :: r

/-- Python `line.strip()`. -/
def pyStrip (l : List Char) : List Char := rstrip (lstrip l)

/-- Python `line.endswith("\\")` on the raw (already terminator-free) line. -/
def endsWithBackslash (l : List Char) : Bool := l.getLast? == some '\\'

/-- Condition of `patch_headers.py` line 59: `line.strip().startswith(("/", "*"))`. -/
def isCommentLine (line : List Char) : Bool :=
  ["/".data, "*".data].any fun p => startsWith p (pyStrip line)

/-- Condition of `patch_headers.py` line 63: `line.strip().startswith(("#"))`. -/
def isDirectiveLine (line : List Char) : Bool :=
  ["#".data].any fun p => startsWith p (pyStrip line)

/-- Condition of `patch_headers.py` line 69: `line.strip().startswith(("}", "{", "extern"))`. -/
def isBlockLine (line : List Char) : Bool :=
  ["\x7d".data, "\x7b".data, "extern".data].any fun p => startsWith p (pyStrip line)

/-- Condition of `patch_headers.py` line 73: `line.strip().startswith(("typedef", "struct", "enum"))`. -/
def isTypeDeclLine (line : List Char) : Bool :=
  ["typedef".data, "struct".data, "enum".data].any fun p => startsWith p (pyStrip line)

/-- Condition of `patch_headers.py` line 77: `not line or line.isspace()`. -/
def isBlankLine (line : List Char) : Bool :=
  line.isEmpty || (!line.isEmpty && line.all isPySpace)

/-- Condition of `patch_headers.py` line 81 (negated): `");" in line`. -/
def hasParenSemi (line : List Char) : Bool := isSubstring (");").data line

/-- The ABI-forcing attribute token of `patch_headers.py` line 86
(the emitted text is this token, a space, then the line). -/
def attrToken : List Char := ("__attribute__((pcs(\"aapcs\")))").data

/-- The classifier loop of `patch_headers.py` lines 52-86.  The `Bool`
argument is the `skip_next_line` flag; the result is the list of emitted
output lines (each of which the script then suffixes with `"\n"`). -/
def processLines : Bool → List (List Char) → List (List Char)
  | _, [] => []
  | true, line :: rest =>
      processLines (endsWithBackslash line) rest
  | false, line :: rest =>
      if isCommentLine line then line :: processLines false rest
      else if isDirectiveLine line then
        line :: processLines (endsWithBackslash line) rest
      else if isBlockLine line then line :: processLines false rest
      else if isTypeDeclLine line then line :: processLines false rest
      else if isBlankLine line then line :: processLines false rest
      else if !hasParenSemi line then line :: processLines false rest
      else (attrToken ++ ' ' :: line) :: processLines false rest

/-- The `transform` contract of the spec: classify a sequence of lines,
starting with the continuation flag clear. -/
def transform (lines : List (List Char)) : List (List Char) :=
  processLines false lines

/-- Python `str.splitlines`, accumulator form: `cur` is the reversed current
line; a trailing terminator produces no empty final line. -/
def splitlinesAux : List Char → List Char → List (List Char)
  | cur, [] => if cur.isEmpty then [] else [cur.reverse]
  | cur, '\r' :: '\n' :: rest => cur.reverse :: splitlinesAux [] rest
  | cur, c :: rest =>
      if isLineBreak c then cur.reverse :: splitlinesAux [] rest
      else splitlinesAux (c :: cur) rest

/-- Python `text.splitlines()`. -/
def splitlines (text : List Char) : List (List Char) := splitlinesAux [] text

/-- Join emitted lines, each suffixed with a single `'\n'`, mirroring the
`output += f"{line}\n"` accumulation of the script. -/
def joinLF (lines : List (List Char)) : List Char :=
  lines.foldr (fun l acc => l ++ '\n' :: acc) []

/-- The whole-text transformation the script applies to one header file:
`splitlines`, classify each line, accumulate with `"\n"` after each
emitted line. -/
def transformText (text : List Char) : List Char :=
  joinLF (transform (splitlines text))

/-! Orchestration of `patch_headers.py` (directory guard, enumeration,
per-file read/transform/write) and of `version.py`, embedded as explicit
state passing over abstract world structures.  I/O actions are recorded as
an event trace. -/

/-- One observable I/O action of either script. -/
inductive Event
  | readF (name : List Char)
  | writeF (name : List Char) (content : List Char)
  | printMsg (msg : List Char)
deriving DecidableEq

/-- Final observable behaviour of `patch_headers.py`: its I/O trace and
process exit code. -/
structure Outcome where
  events : List Event
  exitCode : Nat
deriving DecidableEq

def alreadyPatchedMsg : List Char := ("libv5rts already patched").data

def successMsg : List Char := ("libv5rts patched successfully").data

def failPatchMsg : List Char := ("Failed to patch libv5rts").data

def failMkdirMsg : List Char := ("Could not create directory for patched libv5rts").data

def failListMsg : List Char := ("Error getting directories and files in include path").data

def failOpenMsg : List Char := ("Failed to open file in v5rts").data

def failWriteMsg : List Char := ("Failed to write patched file").data

/-- `print_and_exit` of `patch_headers.py` lines 9-12: print the message and
the fixed failure banner, exit with code 1.  `pre` is the trace accumulated
before the failure. -/
def printAndExit (msg : List Char) (pre : List Event) : Outcome :=
  ⟨pre ++ [Event.printMsg msg, Event.printMsg failPatchMsg], 1⟩

/-- Abstract filesystem as seen by `patch_headers.py`: whether the patched
directory already exists, whether `makedirs` would succeed, the directory
listing of the include path (`none` models a `listdir` failure; each entry
carries its `isfile` status), per-file read results (`none` models an open
failure), and per-file write success. -/
structure PatchWorld where
  patchedDirExists : Bool
  mkdirOk : Bool
  listing : Option (List (List Char × Bool))
  readFile : List Char → Option (List Char)
  writeOk : List Char → Bool

/-- The filter of `patch_headers.py` lines 37-40: keep regular files whose
name ends with `".h"`. -/
def headerFiles (entries : List (List Char × Bool)) : List (List Char) :=
  (entries.filter fun e => e.2 && (".h").data.isSuffixOf e.1).map Prod.fst

/-- The per-file loop of `patch_headers.py` lines 43-91: read each header,
transform it, write the result; the first I/O failure aborts the run with
exit code 1; an empty remaining list prints the success banner and exits 0
(line 93). -/
def processFiles (w : PatchWorld) : List (List Char) → Outcome
  | [] => ⟨[Event.printMsg successMsg], 0⟩
  | n :: rest =>
    match w.readFile n with
    | none => printAndExit failOpenMsg []
    | some content =>
      if w.writeOk n then
        let o := processFiles w rest
        ⟨Event.readF n :: Event.writeF n (transformText content) :: o.events, o.exitCode⟩
      else printAndExit failWriteMsg [Event.readF n]

/-- Top level of `patch_headers.py` lines 23-93.  Resolution of the
script's own directory (lines 15-18) is pure path computation and is
modelled as always succeeding. -/
def runPatchHeaders (w : PatchWorld) : Outcome :=
  if w.patchedDirExists then ⟨[Event.printMsg alreadyPatchedMsg], 0⟩
  else if !w.mkdirOk then printAndExit failMkdirMsg []
  else
    match w.listing with
    | none => printAndExit failListMsg []
    | some entries => processFiles w (headerFiles entries)

/-! Model of `version.py`. -/

def gitErrorMsg : List Char := ("Error calling git").data

def semverMsgPre : List Char := ("Semantic version is ").data

/-- Abstract world of `version.py`: outputs of the three git invocations
(`none` models a `CalledProcessError`), the two environment variables
(`none` models an unset variable), and the lines of `include/api.h`
(its read is modelled as succeeding). -/
structure GitWorld where
  describeOut : Option (List Char)
  revParseOut : Option (List Char)
  revListOut : Option (List Char)
  prNumber : Option (List Char)
  buildId : Option (List Char)
  apiLines : List (List Char)

/-- How `version.py` can stop before falling off the end: a caught
`CalledProcessError` from git, or an uncaught Python exception
(ValueError/TypeError/AssertionError). -/
inductive Halt
  | gitErr
  | pyExc
deriving DecidableEq

/-- Final observable behaviour of `version.py`: it either terminates
normally (success, or the caught-git-error diagnostic) or an uncaught
exception propagates; both carry the trace of prior I/O. -/
inductive VerResult
  | normal (events : List Event)
  | uncaught (events : List Event)
deriving DecidableEq

/-- Python truthiness of `os.environ.get(...)`: `None` and the empty string
are falsy. -/
def pyTruthy (o : Option (List Char)) : Bool :=
  match o with
  | none => false
  | some s => !s.isEmpty

/-- Python `int(s)` on the digit strings produced by version numbers;
`none` models the `ValueError` raised on anything else. -/
def parseDigits (l : List Char) : Option Nat :=
  if !l.isEmpty && l.all Char.isDigit then
    some (l.foldl (fun n c => 10 * n + (c.toNat - 48)) 0)
  else none

/-- Python `(s[:s.rindex(c)+1], s[s.rindex(c)+1:])`; `none` models the
`ValueError` raised when `c` does not occur in `s`. -/
def rindexSplit (c : Char) (l : List Char) : Option (List Char × List Char) :=
  if l.contains c then
    let suf := (l.reverse.takeWhile (fun x => x != c)).reverse
    some (l.take (l.length - suf.length), suf)
  else none

/-- The version computation of `version.py` lines 7-22.  The outputs of
`git describe`, `git rev-parse` and `git rev-list` come from the world
(the `rev-list` argument string is irrelevant to the model); a failing git
call yields `Halt.gitErr`, a missing `BUILD_BUILDID` in the PR branch
raises `TypeError` when concatenated (modelled as `Halt.pyExc`), as do a
`bv` without a dot (`rindex` ValueError) or a non-numeric last component
(`int` ValueError). -/
def computeSemver (w : GitWorld) : Except Halt (List Char) :=
  match w.describeOut with
  | none => .error .gitErr
  | some raw =>
    let v := pyStrip raw
    if isSubstring ("-").data v then
      let bv0 := v.takeWhile (fun x => x != '-')
      match rindexSplit '.' bv0 with
      | none => .error .pyExc
      | some (pre, suf) =>
        match parseDigits suf with
        | none => .error .pyExc
        | some n =>
          let bv := pre ++ Nat.toDigits 10 (n + 1)
          if pyTruthy w.prNumber then
            let sempre := ("pr").data ++ w.prNumber.getD []
            match w.buildId with
            | none => .error .pyExc
            | some build => .ok (bv ++ '-' :: sempre ++ '.' :: build)
          else
            let sempre :=
              if ("-dirty").data.isSuffixOf v then ("dirty").data
              else ("commit").data
            match w.revParseOut with
            | none => .error .gitErr
            | some rp =>
              match w.revListOut with
              | none => .error .gitErr
              | some rl => .ok (bv ++ '-' :: sempre ++ '.' :: (pyStrip rl ++ '.' :: pyStrip rp))
    else .ok v

def sMAJOR : List Char := ("#define PROS_VERSION_MAJOR").data

def sMINOR : List Char := ("#define PROS_VERSION_MINOR").data

def sPATCH : List Char := ("#define PROS_VERSION_PATCH").data

def sSTRING : List Char := ("#define PROS_VERSION_STRING ").data

/-- The rewrite loop of `version.py` lines 33-41: all four `in` tests are
against the original line, and a later matching assignment overwrites an
earlier one, so precedence is STRING over PATCH over MINOR over MAJOR. -/
def stampLine (major minor patch semver line : List Char) : List Char :=
  if isSubstring sSTRING line then
    ("#define PROS_VERSION_STRING \"").data ++ semver ++ ("\"\n").data
  else if isSubstring sPATCH line then
    ("#define PROS_VERSION_PATCH ").data ++ patch ++ ['\n']
  else if isSubstring sMINOR line then
    ("#define PROS_VERSION_MINOR ").data ++ minor ++ ['\n']
  else if isSubstring sMAJOR line then
    ("#define PROS_VERSION_MAJOR ").data ++ major ++ ['\n']
  else line

/-- Python `semver.split('.', 2)`, valid when `semver` has at least two
dots (guaranteed by the preceding assert). -/
def splitDot2 (s : List Char) : List Char × List Char × List Char :=
  let major := s.takeWhile (fun c => c != '.')
  let r1 := s.drop (major.length + 1)
  let minor := r1.takeWhile (fun c => c != '.')
  (major, minor, r1.drop (minor.length + 1))

/-- Top level of `version.py` lines 6-46: compute the semantic version
(lines 7-22), print it and write the `version` file (lines 24-26; opening
the file for writing creates it before the print, so both events are
emitted together), assert at least two dots (line 28; failing after the
write, as in the source), split into components and rewrite
`include/api.h` (lines 29-43).  A `CalledProcessError` from git reaches
the `except` clause, which prints the diagnostic and terminates
normally. -/
def runVersion (w : GitWorld) : VerResult :=
  match computeSemver w with
  | .error .gitErr => .normal [Event.printMsg gitErrorMsg]
  | .error .pyExc => .uncaught []
  | .ok semver =>
    let ev1 := [Event.printMsg (semverMsgPre ++ semver), Event.writeF (("version").data) semver]
    if semver.count '.' < 2 then .uncaught ev1
    else
      let parts := splitDot2 semver
      let patch := parts.2.2.takeWhile (fun c => c != '-')
      let newLines := w.apiLines.map (stampLine parts.1 parts.2.1 patch semver)
      .normal (ev1 ++ [Event.writeF (("include/api.h").data) newLines.flatten])

/-! Helper lemmas. -/

lemma processLines_rule8 (line : List Char) (rest : List (List Char))
    (h1 : isCommentLine line = false) (h2 : isDirectiveLine line = false)
    (h3 : isBlockLine line = false) (h4 : isTypeDeclLine line = false)
    (h5 : isBlankLine line = false) (h6 : hasParenSemi line = true) :
    processLines false (line :: rest) = (attrToken ++ ' ' :: line) :: processLines false rest := by
  simp [processLines, h1, h2, h3, h4, h5, h6]

lemma data_slash : ("/").data = ['/'] := rfl

lemma data_star : ("*").data = ['*'] := rfl

lemma data_hash : ("#").data = ['#'] := rfl

lemma data_rbrace : ("\x7d").data = ['\x7d'] := rfl

lemma data_lbrace : ("\x7b").data = ['\x7b'] := rfl

lemma data_extern : ("extern").data = 'e' :: ("xtern").data := rfl

lemma data_typedef : ("typedef").data = 't' :: ("ypedef").data := rfl

lemma data_struct : ("struct").data = 's' :: ("truct").data := rfl

lemma data_enum : ("enum").data = 'e' :: ("num").data := rfl

lemma startsWith_cons_ne (a b : Char) (ps r : List Char) (h : (a == b) = false) :
    startsWith (a :: ps) (b :: r) = false := by
  simp [startsWith, h]

lemma isSubstring_append (p x l : List Char) (h : isSubstring p l = true) :
    isSubstring p (x ++ l) = true := by
  induction x with
  | nil => simpa using h
  | cons c x ih =>
    simp only [List.cons_append, isSubstring, Bool.or_eq_true]
    exact Or.inr ih

lemma pyStrip_cons (c : Char) (t : List Char) (h : isPySpace c = false) :
    pyStrip (c :: t) = c :: rstrip t := by
  unfold pyStrip lstrip
  rw [List.dropWhile_cons, h]
  simp [rstrip, h]

lemma isCommentLine_eq_false_of_isDirectiveLine (l : List Char)
    (h : isDirectiveLine l = true) : isCommentLine l = false := by
  unfold isDirectiveLine at h
  unfold isCommentLine
  simp only [List.any_cons, List.any_nil, Bool.or_false, data_hash, data_slash, data_star] at h ⊢
  cases hs : pyStrip l with
  | nil => rw [hs] at h; simp [startsWith] at h
  | cons a t =>
    rw [hs] at h
    have ha : ('#' == a) = true := by
      by_contra hne
      rw [startsWith_cons_ne _ _ _ _ (Bool.not_eq_true _ ▸ hne)] at h
      exact Bool.false_ne_true h
    have : a = '#' := (beq_iff_eq.mp ha).symm
    subst this
    rw [startsWith_cons_ne _ _ _ _ (by decide), startsWith_cons_ne _ _ _ _ (by decide)]
    rfl

lemma guards_underscore (tail : List Char) :
    isCommentLine ('_' :: tail) = false ∧ isDirectiveLine ('_' :: tail) = false ∧
    isBlockLine ('_' :: tail) = false ∧ isTypeDeclLine ('_' :: tail) = false ∧
    isBlankLine ('_' :: tail) = false := by
  have hs : pyStrip ('_' :: tail) = '_' :: rstrip tail := pyStrip_cons _ _ (by decide)
  refine ⟨?_, ?_, ?_, ?_, ?_⟩
  · unfold isCommentLine
    simp only [List.any_cons, List.any_nil, Bool.or_false, data_slash, data_star, hs]
    rw [startsWith_cons_ne _ _ _ _ (by decide), startsWith_cons_ne _ _ _ _ (by decide)]
    rfl
  · unfold isDirectiveLine
    simp only [List.any_cons, List.any_nil, Bool.or_false, data_hash, hs]
    rw [startsWith_cons_ne _ _ _ _ (by decide)]
  · unfold isBlockLine
    simp only [List.any_cons, List.any_nil, Bool.or_false, data_rbrace, data_lbrace,
      data_extern, hs]
    rw [startsWith_cons_ne _ _ _ _ (by decide), startsWith_cons_ne _ _ _ _ (by decide),
      startsWith_cons_ne _ _ _ _ (by decide)]
    rfl
  · unfold isTypeDeclLine
    simp only [List.any_cons, List.any_nil, Bool.or_false, data_typedef, data_struct,
      data_enum, hs]
    rw [startsWith_cons_ne _ _ _ _ (by decide), startsWith_cons_ne _ _ _ _ (by decide),
      startsWith_cons_ne _ _ _ _ (by decide)]
    rfl
  · unfold isBlankLine
    simp [List.all_cons, show isPySpace '_' = false from by decide]

lemma attrToken_head :
    attrToken = '_' :: ("_attribute__((pcs(\"aapcs\")))").data := rfl

lemma attrLine_cons (line : List Char) :
    attrToken ++ ' ' :: line = '_' :: (("_attribute__((pcs(\"aapcs\"))) ").data ++ line) := rfl

lemma processLines_mem (lines : List (List Char)) (flag : Bool) (out : List Char)
    (h : out ∈ processLines flag lines) :
    out ∈ lines ∨ ∃ l, l ∈ lines ∧ out = attrToken ++ ' ' :: l := by
  induction lines generalizing flag with
  | nil => simp [processLines] at h
  | cons line rest ih =>
    have lift : (out ∈ rest ∨ ∃ l, l ∈ rest ∧ out = attrToken ++ ' ' :: l) →
        out ∈ line :: rest ∨ ∃ l, l ∈ line :: rest ∧ out = attrToken ++ ' ' :: l := by
      rintro (h' | ⟨l, hl, rfl⟩)
      · exact Or.inl (List.mem_cons_of_mem _ h')
      · exact Or.inr ⟨l, List.mem_cons_of_mem _ hl, rfl⟩
    cases flag with
    | true =>
      simp only [processLines] at h
      exact lift (ih _ h)
    | false =>
      simp only [processLines] at h
      split at h
      · rcases List.mem_cons.mp h with rfl | h'
        · exact Or.inl (List.mem_cons_self _ _)
        · exact lift (ih _ h')
      · split at h
        · rcases List.mem_cons.mp h with rfl | h'
          · exact Or.inl (List.mem_cons_self _ _)
          · exact lift (ih _ h')
        · split at h
          · rcases List.mem_cons.mp h with rfl | h'
            · exact Or.inl (List.mem_cons_self _ _)
            · exact lift (ih _ h')
          · split at h
            · rcases List.mem_cons.mp h with rfl | h'
              · exact Or.inl (List.mem_cons_self _ _)
              · exact lift (ih _ h')
            · split at h
              · rcases List.mem_cons.mp h with rfl | h'
                · exact Or.inl (List.mem_cons_self _ _)
                · exact lift (ih _ h')
              · split at h
                · rcases List.mem_cons.mp h with rfl | h'
                  · exact Or.inl (List.mem_cons_self _ _)
                  · exact lift (ih _ h')
                · rcases List.mem_cons.mp h with rfl | h'
                  · exact Or.inr ⟨line, List.mem_cons_self _ _, rfl⟩
                  · exact lift (ih _ h')

lemma joinLF_getLast (ls : List (List Char)) :
    joinLF ls = [] ∨ (joinLF ls).getLast? = some '\n' := by
  induction ls with
  | nil => exact Or.inl rfl
  | cons l ls ih =>
    right
    have : joinLF (l :: ls) = l ++ '\n' :: joinLF ls := rfl
    rw [this, List.getLast?_append_cons]
    rcases ih with h | h
    · rw [h]; simp
    · cases hj : joinLF ls with
      | nil => rfl
      | cons x xs =>
        rw [List.getLast?_cons_cons, ← hj, h]

/-! Claim theorems. -/

/-- C1: with the continuation flag clear, a line matching none of rules 1-7
(not a comment, directive, block marker, type declaration or blank line)
that contains the sequence `);` is emitted as the attribute token, a single
space, then the original line content unchanged, on the same output line;
processing continues on the rest with the flag clear. -/
theorem c1_rule8_attribute_injection (line : List Char) (rest : List (List Char))
    (h1 : isCommentLine line = false) (h2 : isDirectiveLine line = false)
    (h3 : isBlockLine line = false) (h4 : isTypeDeclLine line = false)
    (h5 : isBlankLine line = false) (h6 : hasParenSemi line = true) :
    processLines false (line :: rest) = (attrToken ++ ' ' :: line) :: processLines false rest :=
  processLines_rule8 line rest h1 h2 h3 h4 h5 h6

/-- C1 witness: the spec's concrete instance `void  vexDeviceGet(void);`. -/
theorem c1_rule8_attribute_injection_witness :
    processLines false [("void  vexDeviceGet(void);").data]
      = [attrToken ++ ' ' :: ("void  vexDeviceGet(void);").data] :=
  c1_rule8_attribute_injection (("void  vexDeviceGet(void);").data) []
    (by decide) (by decide) (by decide) (by decide) (by decide) (by decide)

/-- C2: a preprocessor-directive line whose raw content ends in a backslash,
followed by a continuation line also ending in a backslash and then one that
does not, is emitted unmodified; both follow-on lines are dropped, and the
remaining lines are processed with the continuation flag cleared. -/
theorem c2_continuation_block (d c1 c2 : List Char) (rest : List (List Char))
    (hd : isDirectiveLine d = true) (hbd : endsWithBackslash d = true)
    (hb1 : endsWithBackslash c1 = true) (hb2 : endsWithBackslash c2 = false) :
    processLines false (d :: c1 :: c2 :: rest) = d :: processLines false rest := by
  have hc := isCommentLine_eq_false_of_isDirectiveLine d hd
  simp [processLines, hc, hd, hbd, hb1, hb2]

/-- C2 witness: a concrete three-line continuation block followed by a
declaration, which is classified normally (and patched). -/
theorem c2_continuation_block_witness :
    processLines false [("#define A \\").data, ("x \\").data, ("y").data,
        ("void f(void);").data]
      = [("#define A \\").data, attrToken ++ ' ' :: ("void f(void);").data] := by
  rw [c2_continuation_block _ _ _ _ (by decide) (by decide) (by decide) (by decide)]
  decide

/-- C3 counterexample: `transform` is not idempotent on its own output; on a
text holding one function declaration a second application inserts the
attribute token a second time. -/
theorem c3_counterexample :
    transformText (transformText (("void f(void);\n").data))
      ≠ transformText (("void f(void);\n").data) := by decide

/-- C3 (amended): `transform` is not idempotent: a rule-8 line already
beginning with the attribute token still matches rule 8 (its stripped
content starts with `_` and it still contains `);`), so a second
application inserts the token a second time. -/
theorem c3_amended_double_insert (line : List Char) (rest : List (List Char))
    (h : hasParenSemi line = true) :
    processLines false ((attrToken ++ ' ' :: line) :: rest)
      = (attrToken ++ ' ' :: (attrToken ++ ' ' :: line)) :: processLines false rest := by
  have hps : hasParenSemi (attrToken ++ ' ' :: line) = true := by
    have e : attrToken ++ ' ' :: line = (attrToken ++ [' ']) ++ line := by simp
    unfold hasParenSemi at h ⊢
    rw [e]
    exact isSubstring_append _ _ _ h
  obtain ⟨g1, g2, g3, g4, g5⟩ :=
    guards_underscore ((("_attribute__((pcs(\"aapcs\"))) ").data) ++ line)
  rw [attrLine_cons line] at hps ⊢
  exact processLines_rule8 _ _ g1 g2 g3 g4 g5 hps

/-- C3 witness: double insertion on the already-patched line
`__attribute__((pcs("aapcs"))) void f(void);`. -/
theorem c3_amended_double_insert_witness :
    hasParenSemi (("void f(void);").data) = true ∧
    processLines false [attrToken ++ ' ' :: ("void f(void);").data]
      = [attrToken ++ ' ' :: (attrToken ++ ' ' :: ("void f(void);").data)] :=
  ⟨by decide, c3_amended_double_insert (("void f(void);").data) [] (by decide)⟩

/-- C4 counterexample: the per-line newline convention is not preserved; a
CRLF-terminated pass-through line is re-emitted with a bare LF. -/
theorem c4_counterexample :
    transformText (("int x;\r\n").data) ≠ ("int x;\r\n").data ∧
    transformText (("int x;\r\n").data) = ("int x;\n").data := by decide

/-- C4 (amended): every emitted output line is an input line unchanged, or
an input line prefixed with the attribute token and a space (rule 8) —
dropped continuation lines simply do not appear — but each emitted line is
terminated with a single LF regardless of the source terminator, so the
output text, when non-empty, ends in LF. -/
theorem c4_frame_amended (text : List Char) :
    (∀ out ∈ transform (splitlines text),
      out ∈ splitlines text ∨ ∃ l, l ∈ splitlines text ∧ out = attrToken ++ ' ' :: l) ∧
    (transformText text = [] ∨ (transformText text).getLast? = some '\n') :=
  ⟨fun _ h => processLines_mem _ _ _ h, joinLF_getLast _⟩

/-- C4 witness: the frame property instantiated on a one-declaration text
and its patched output line. -/
theorem c4_frame_amended_witness :
    attrToken ++ ' ' :: ("void f(void);").data ∈ splitlines (("void f(void);\n").data) ∨
      ∃ l, l ∈ splitlines (("void f(void);\n").data) ∧
        attrToken ++ ' ' :: ("void f(void);").data = attrToken ++ ' ' :: l :=
  (c4_frame_amended (("void f(void);\n").data)).1 _ (by decide)

/-- C5: a line processed with the continuation flag set is dropped from the
output whatever its content, and the flag afterwards is set exactly when
the raw line ends in a backslash (so it is cleared exactly when it does
not). -/
theorem c5_continuation_drop (line : List Char) (rest : List (List Char)) :
    processLines true (line :: rest) = processLines (endsWithBackslash line) rest := rfl

/-- C6: with the continuation flag clear, a line whose stripped content
starts with `/` or `*` is emitted unmodified — rule 2 runs before the
`);` check, so this holds also for comment lines containing `);`. -/
theorem c6_comment_priority (line : List Char) (rest : List (List Char))
    (h : isCommentLine line = true) :
    processLines false (line :: rest) = line :: processLines false rest := by
  simp [processLines, h]

/-- C6 witness: the adversarial comment line `/* callback(); */`, which
contains `);` yet passes through unmodified. -/
theorem c6_comment_priority_witness :
    hasParenSemi (("/* callback(); */").data) = true ∧
    processLines false [("/* callback(); */").data] = [("/* callback(); */").data] :=
  ⟨by decide, c6_comment_priority _ [] (by decide)⟩

/-- C7: the pass-through set — a comment, a directive, a typedef, a lone
brace and an all-whitespace line — is emitted byte-identical to the
input. -/
theorem c7_passthrough_set :
    transform [("// comment").data, ("#define X 1").data, ("typedef int foo_t;").data,
        ("\x7b").data, ("   ").data]
      = [("// comment").data, ("#define X 1").data, ("typedef int foo_t;").data,
        ("\x7b").data, ("   ").data] := by decide

/-- C8: when the destination directory already exists, the run prints the
already-patched message and exits with code 0, and its trace holds no file
read and no file write. -/
theorem c8_already_patched_guard (w : PatchWorld) (h : w.patchedDirExists = true) :
    runPatchHeaders w = ⟨[Event.printMsg alreadyPatchedMsg], 0⟩ ∧
    ∀ n c, Event.readF n ∉ (runPatchHeaders w).events ∧
      Event.writeF n c ∉ (runPatchHeaders w).events := by
  have he : runPatchHeaders w = ⟨[Event.printMsg alreadyPatchedMsg], 0⟩ := by
    simp [runPatchHeaders, h]
  refine ⟨he, fun n c => ?_⟩
  rw [he]
  simp

/-- C8 witness: a world whose destination directory exists. -/
theorem c8_already_patched_guard_witness :
    runPatchHeaders
        (PatchWorld.mk true true (some []) (fun _ => none) (fun _ => true))
      = ⟨[Event.printMsg alreadyPatchedMsg], 0⟩ :=
  (c8_already_patched_guard
    (PatchWorld.mk true true (some []) (fun _ => none) (fun _ => true)) rfl).1

/-- C9: an empty header transforms to the empty text, and its (empty)
destination file is still written. -/
theorem c9_empty_header_written (w : PatchWorld) (n : List Char)
    (h0 : w.patchedDirExists = false) (h1 : w.mkdirOk = true)
    (h2 : w.listing = some [(n, true)]) (h3 : (".h").data.isSuffixOf n = true)
    (h4 : w.readFile n = some []) (h5 : w.writeOk n = true) :
    transformText [] = [] ∧ Event.writeF n [] ∈ (runPatchHeaders w).events := by
  refine ⟨rfl, ?_⟩
  have hrun : runPatchHeaders w = processFiles w [n] := by
    simp [runPatchHeaders, h0, h1, h2, headerFiles, h3]
  have hte : transformText [] = ([] : List Char) := rfl
  rw [hrun]
  simp [processFiles, h4, h5, hte]

/-- C9 witness: a world with one empty header `a.h`. -/
theorem c9_empty_header_written_witness :
    transformText [] = [] ∧
    Event.writeF (("a.h").data) [] ∈
      (runPatchHeaders
        (PatchWorld.mk false true (some [((("a.h").data), true)])
          (fun _ => some []) (fun _ => true))).events :=
  c9_empty_header_written _ (("a.h").data) rfl rfl rfl (by decide) rfl rfl

/-- C10: when `git describe` raises `CalledProcessError`, `version.py`
catches it, prints the diagnostic and terminates normally; its trace holds
no file write, so neither `version` nor `include/api.h` is touched. -/
theorem c10_git_error_no_writes (w : GitWorld) (h : w.describeOut = none) :
    runVersion w = VerResult.normal [Event.printMsg gitErrorMsg] ∧
    ∀ n c es, runVersion w = VerResult.normal es → Event.writeF n c ∉ es := by
  have he : runVersion w = VerResult.normal [Event.printMsg gitErrorMsg] := by
    simp [runVersion, computeSemver, h]
  refine ⟨he, fun n c es hes => ?_⟩
  rw [he] at hes
  cases hes
  simp

/-- C10 witness: a world whose `git describe` call fails. -/
theorem c10_git_error_no_writes_witness :
    runVersion (GitWorld.mk none none none none none [])
      = VerResult.normal [Event.printMsg gitErrorMsg] :=
  (c10_git_error_no_writes (GitWorld.mk none none none none none []) rfl).1

end Pros
